import Mathlib

/-!
Shallow embedding of the fire-rs-saop trajectory-planning core.

The authoritative source file is `src/fire_rs/planning-cpp/src/plan.h`
(struct `Plan`): its constructor, `cost`, `observations`,
`insert_segment` / `erase_segment` / `replace_segment` and
`project_on_firefront` are translated below.  The collaborator types
declared in the headers `trajectory.h` and `visibility.h` (`Trajectory`,
`FireData`, `UAV`, `Segment`, rasters and geometric primitives) are not
part of the given sources, so they are modelled from the specification
document (sections 3 and 4.1 to 4.3); each such definition carries a
doc comment saying so.  The configuration entry points `plan_vns` and
`replan_vns` of `src/cpp/src/planning_py.cpp` are embedded at the end.

Numeric conventions: C++ `double` values are embedded as exact
rationals.  Euclidean distance involves a square root, so a strict
comparison `dist > d` on nonnegative quantities is embedded as the
equivalent comparison of squared distances `dist_sq > d^2`; the
real-valued distance itself (needed by `Plan.cost`) is `Real.sqrt` of
the squared distance.
-/

/-- A 2D point (source: `Point`, declared in the geometry headers;
modelled from the spec, section 3). -/
structure Point where
  x : ℚ
  y : ℚ
deriving DecidableEq, Repr

instance : Inhabited Point := ⟨⟨0, 0⟩⟩

/-- Squared Euclidean distance between two points.  The C++
`Point::dist` returns the (real) Euclidean distance; comparisons of
distances against thresholds are embedded on squares. -/
def Point.dist_sq (p q : Point) : ℚ :=
  (p.x - q.x) ^ 2 + (p.y - q.y) ^ 2

/-- Euclidean distance (the value the C++ `Point::dist` computes). -/
noncomputable def Point.dist (p q : Point) : ℝ :=
  Real.sqrt (Point.dist_sq p q)

/-- A discrete raster cell (source: `Cell`; modelled from the spec,
section 3: cell indices of a grid). -/
structure Cell where
  x : ℕ
  y : ℕ
deriving DecidableEq, Repr

/-- A time window `(start, end)` (source: `TimeWindow`; modelled from
the spec, section 3).  `end` is a Lean keyword, hence the field name
`end_`. -/
structure TimeWindow where
  start : ℚ
  end_ : ℚ
deriving DecidableEq, Repr

/-- An oriented waypoint: position plus heading (source: `Waypoint`;
modelled from the spec, section 3). -/
structure Waypoint where
  x : ℚ
  y : ℚ
  dir : ℚ
deriving DecidableEq, Repr

instance : Inhabited Waypoint := ⟨⟨0, 0, 0⟩⟩

/-- The position of a waypoint, forgetting the heading (source:
`Waypoint::as_point`). -/
def Waypoint.as_point (w : Waypoint) : Point := ⟨w.x, w.y⟩

/-- A directed path primitive from a start waypoint to an end waypoint
(source: `Segment`; modelled from the spec, section 3).  `end` is a
Lean keyword, hence `finish`. -/
structure Segment where
  start : Waypoint
  finish : Waypoint
deriving DecidableEq, Repr

instance : Inhabited Segment := ⟨⟨default, default⟩⟩

/-- A point tagged with a time (source: `PointTime` in `plan.h`). -/
structure PointTime where
  pt : Point
  t : ℚ
deriving DecidableEq, Repr

/-- A point tagged with a time window (source: `PointTimeWindow` in
`plan.h`). -/
structure PointTimeWindow where
  pt : Point
  tw : TimeWindow
deriving DecidableEq, Repr

/-- Modelled from the spec: the vehicle capability object (section 3
"Vehicle" and section 4.1), `uav.h` not being among the given sources.
Only the two capabilities `plan.h` uses are modelled: the
sensor-footprint center of a segment (field name keeps the source's
spelling `visibilty_center`) and the travel time between two oriented
waypoints, used by the trajectory to derive segment start times. -/
structure UAV where
  visibilty_center : Segment → Waypoint
  travel_time : Waypoint → Waypoint → ℚ

instance : Inhabited UAV := ⟨⟨fun _ => default, fun _ _ => 0⟩⟩

/-- Modelled from the spec: a trajectory configuration (section 3):
a vehicle, an earliest start time and a maximum flight-time budget
(`trajectory.h` not being among the given sources). -/
structure TrajectoryConfig where
  uav : UAV
  start_time : ℚ
  max_flight_time : ℚ

instance : Inhabited TrajectoryConfig := ⟨⟨default, 0, 0⟩⟩

/-- Modelled from the spec: one vehicle's ordered path (section 3
"Trajectory"): a configuration plus the ordered sequence of segments.
The field holding the segments is called `traj` as in the source
(`plan.h` accesses `trajectories[i].traj`). -/
structure Trajectory where
  conf : TrajectoryConfig
  traj : List Segment

instance : Inhabited Trajectory := ⟨⟨default, []⟩⟩

/-- Number of segments (source: `Trajectory::size`). -/
def Trajectory.size (tr : Trajectory) : ℕ := tr.traj.length

/-- The i-th segment (source: `Trajectory::operator[]`). -/
def Trajectory.seg (tr : Trajectory) (i : ℕ) : Segment := tr.traj.getD i default

/-- Modelled from the spec: the cumulative start times of the segments
(section 3: "cumulative start time of each segment (based on travel
time between consecutive segment endpoints plus any dwell)").  The
first segment starts at the configured earliest start time; each later
segment starts after the previous segment has been traversed and the
vehicle has travelled from its end to the next segment's start. -/
def startTimes (u : UAV) (t0 : ℚ) : List Segment → List ℚ
  | [] => []
  | s :: rest =>
    t0 ::
      match rest with
      | [] => []
      | s2 :: _ =>
        startTimes u (t0 + u.travel_time s.start s.finish + u.travel_time s.finish s2.start) rest

/-- Start time of segment `i` (source: `Trajectory::start_time`;
modelled from the spec as `trajectory.h` is not among the given
sources). -/
def Trajectory.start_time (tr : Trajectory) (i : ℕ) : ℚ :=
  (startTimes tr.conf.uav tr.conf.start_time tr.traj).getD i tr.conf.start_time

/-- Modelled from the spec: the structural edit inserting a segment at
an index (section 4.2).  The flight-time budget re-validation of
`trajectory.h` is not modelled; no claim depends on it. -/
def Trajectory.insert_segment (tr : Trajectory) (seg : Segment) (at_idx : ℕ) : Trajectory :=
  { tr with traj := tr.traj.insertIdx at_idx seg }

/-- Modelled from the spec: the structural edit erasing the segment at
an index (section 4.2). -/
def Trajectory.erase_segment (tr : Trajectory) (at_idx : ℕ) : Trajectory :=
  { tr with traj := tr.traj.eraseIdx at_idx }

/-- Modelled from the spec: a regular 2D scalar grid with cell/point
conversion (section 3 "Grid", `raster.h` not being among the given
sources).  `cells` is the dense value array, indexed by cell. -/
structure Raster where
  x_width : ℕ
  y_height : ℕ
  cells : ℕ → ℕ → ℚ
  x_offset : ℚ
  y_offset : ℚ
  cell_width : ℚ

/-- Value lookup at a cell (source: `Raster::operator()(Cell)`). -/
def Raster.at_cell (r : Raster) (c : Cell) : ℚ := r.cells c.x c.y

/-- Modelled from the spec: cell-to-point conversion of a grid. -/
def Raster.as_point (r : Raster) (c : Cell) : Point :=
  ⟨r.x_offset + r.cell_width * c.x, r.y_offset + r.cell_width * c.y⟩

/-- Modelled from the spec: point-to-cell conversion of a grid. -/
def Raster.as_cell (r : Raster) (w : Waypoint) : Cell :=
  ⟨((w.x - r.x_offset) / r.cell_width).floor.toNat,
   ((w.y - r.y_offset) / r.cell_width).floor.toNat⟩

/-- Modelled from the spec: the front model (section 3 "FrontData" and
section 4.3; `visibility.h` / `fire.h` not being among the given
sources).  `ignitions` is the arrival-time grid; `traversal_end` gives
the per-cell end of the informative window; `project_on_firefront`
maps a segment, the observing vehicle and a time to an optional
replacement segment on the front's estimated position at that time
(no value when no such point exists). -/
structure FireData where
  ignitions : Raster
  traversal_end : Cell → ℚ
  project_on_firefront : Segment → UAV → ℚ → Option Segment

/-- Per-cell arrival time of the front (spec section 4.3:
`arrival(cell)` is a direct lookup on the arrival-time grid). -/
def FireData.arrival (f : FireData) (c : Cell) : ℚ := f.ignitions.at_cell c

/-- Per-cell departure time of the front (spec section 4.3:
`departure(cell)`). -/
def FireData.departure (f : FireData) (c : Cell) : ℚ := f.traversal_end c

/-- The plan: one time window, the trajectories, the shared fire data
and the derived possible observations (source: `struct Plan`,
`plan.h` lines 11-15). -/
structure Plan where
  time_window : TimeWindow
  trajectories : List Trajectory
  fire : FireData
  possible_observations : List PointTimeWindow

/-- Source: `Plan::MAX_INFORMATIVE_DISTANCE` (`plan.h`, private
constant, 500). -/
def MAX_INFORMATIVE_DISTANCE : ℝ := 500

/-- Source: `Plan::REDUNDANT_OBS_DIST` (`plan.h`, private constant,
0). -/
def REDUNDANT_OBS_DIST : ℝ := 0

/-- The double loop of the `Plan` constructor building
`possible_observations` (`plan.h` lines 28-37): every cell whose
ignition time lies in the time window, paired with the point of the
cell and the window `[ignition, traversal_end]`; x runs over the grid
width and, inside it, y over the height. -/
def possibleObservations (fire : FireData) (tw : TimeWindow) : List PointTimeWindow :=
  (List.range fire.ignitions.x_width).flatMap fun x =>
    (List.range fire.ignitions.y_height).filterMap fun y =>
      let t := fire.ignitions.cells x y
      if tw.start ≤ t ∧ t ≤ tw.end_ then
        some ⟨fire.ignitions.as_point ⟨x, y⟩,
              ⟨fire.ignitions.at_cell ⟨x, y⟩, fire.traversal_end ⟨x, y⟩⟩⟩
      else none

/-- The `Plan` constructor (`plan.h` lines 19-38).  The C++ code
ASSERTs, for every trajectory configuration, that its start time lies
inside the time window; the fallible construction is embedded as an
`Option`, `none` when the assertion fails.  The `Trajectory(conf)`
value built by `trajectory.h` is modelled from the spec as the
configuration with no segments yet. -/
def Plan.build (traj_confs : List TrajectoryConfig) (fire_data : FireData)
    (tw : TimeWindow) : Option Plan :=
  if ∀ conf ∈ traj_confs, tw.start ≤ conf.start_time ∧ conf.start_time ≤ tw.end_ then
    some { time_window := tw
           trajectories := traj_confs.map fun conf => ⟨conf, []⟩
           fire := fire_data
           possible_observations := possibleObservations fire_data tw }
  else none

/-- Source: `Plan::observations` (`plan.h` lines 94-110): for every
segment of every trajectory, the visibility center tagged with the
segment's start time, kept only when that time lies in the informative
window of the cell containing the center. -/
def Plan.observations (p : Plan) : List PointTime :=
  p.trajectories.flatMap fun traj =>
    (List.range traj.size).filterMap fun seg_id =>
      let seg := traj.seg seg_id
      let wp := traj.conf.uav.visibilty_center seg
      let obs_time := traj.start_time seg_id
      let c := p.fire.ignitions.as_cell wp
      if p.fire.ignitions.at_cell c ≤ obs_time ∧ obs_time ≤ p.fire.traversal_end c then
        some ⟨⟨wp.x, wp.y⟩, traj.start_time seg_id⟩
      else none

/-- The inner loop of `Plan::cost` (`plan.h` lines 64-68): the distance
from a point to the closest realized observation, started at
`MAX_INFORMATIVE_DISTANCE` and lowered by `min` over the realized
observations. -/
noncomputable def minDistTo (done_obs : List PointTime) (pt : Point) : ℝ :=
  done_obs.foldl (fun m obs => min m (Point.dist pt obs.pt)) MAX_INFORMATIVE_DISTANCE

/-- The per-possible-observation cost term of `Plan::cost` (`plan.h`
line 73): the distance to the closest realized observation, clamped and
normalized linearly. -/
noncomputable def selfCost (done_obs : List PointTime) (possible_obs : PointTimeWindow) : ℝ :=
  (max (minDistTo done_obs possible_obs.pt) REDUNDANT_OBS_DIST - REDUNDANT_OBS_DIST) /
    (MAX_INFORMATIVE_DISTANCE - REDUNDANT_OBS_DIST)

/-- Source: `Plan::cost` (`plan.h` lines 60-77): the per-observation
cost terms accumulated over all possible observations. -/
noncomputable def Plan.cost (p : Plan) : ℝ :=
  p.possible_observations.foldl
    (fun global_cost possible_obs => global_cost + selfCost p.observations possible_obs) 0

/-- Squared distance from the projected segment's footprint center to
the previous segment's footprint center, `999999 ^ 2` when there is no
previous segment (`plan.h` lines 148-149, on squared distances). -/
def prevDistSq (tr : Trajectory) (seg_id : ℕ) (projected : Segment) : ℚ :=
  if seg_id = 0 then 999999 ^ 2 else
    Point.dist_sq ((tr.conf.uav.visibilty_center projected).as_point)
      ((tr.conf.uav.visibilty_center (tr.seg (seg_id - 1))).as_point)

/-- Squared distance from the projected segment's footprint center to
the next segment's footprint center, `999999 ^ 2` when there is no next
segment (`plan.h` lines 150-151, on squared distances). -/
def nextDistSq (tr : Trajectory) (seg_id : ℕ) (projected : Segment) : ℚ :=
  if tr.size - 1 ≤ seg_id then 999999 ^ 2 else
    Point.dist_sq ((tr.conf.uav.visibilty_center projected).as_point)
      ((tr.conf.uav.visibilty_center (tr.seg (seg_id + 1))).as_point)

/-- The `while` loop of `Plan::project_on_firefront` for one trajectory
(`plan.h` lines 138-166), starting at index `seg_id`.  Each iteration
strictly decreases `tr.size - seg_id`, so the extra `fuel` argument is
only an upper bound on that measure making the recursion structural:
when `fuel` is exhausted the measure is zero, i.e. `seg_id ≥ tr.size`,
which is exactly the loop's exit condition.  Distance comparisons of
the source (`> 49.`, with `999999` for a missing neighbour) are
embedded on squared distances. -/
def projectFrom (fire : FireData) : ℕ → Trajectory → ℕ → Trajectory
  | 0, tr, _ => tr
  | fuel + 1, tr, seg_id =>
    if seg_id < tr.size then
      let seg := tr.seg seg_id
      let t := tr.start_time seg_id
      match fire.project_on_firefront seg tr.conf.uav t with
      | some projected =>
        if projected = seg then
          projectFrom fire fuel tr (seg_id + 1)
        else
          let tr1 := tr.erase_segment seg_id
          if 49 ^ 2 < prevDistSq tr seg_id projected ∧ 49 ^ 2 < nextDistSq tr seg_id projected then
            projectFrom fire fuel (tr1.insert_segment projected seg_id) (seg_id + 1)
          else
            projectFrom fire fuel tr1 seg_id
      | none => projectFrom fire fuel (tr.erase_segment seg_id) seg_id
    else tr

/-- Source: `Plan::project_on_firefront` (`plan.h` lines 136-168): the
repair pass, run over every trajectory. -/
def Plan.project_on_firefront (p : Plan) : Plan :=
  { p with trajectories := p.trajectories.map fun tr => projectFrom p.fire tr.size tr 0 }

/-- Source: `Plan::insert_segment` (`plan.h` lines 113-118).  The two
ASSERTs are embedded as the guard of an `Option`. -/
def Plan.insert_segment (p : Plan) (traj_id : ℕ) (seg : Segment) (insert_loc : ℕ) :
    Option Plan :=
  if traj_id < p.trajectories.length ∧ insert_loc ≤ (p.trajectories.getD traj_id default).size then
    let tr1 := (p.trajectories.getD traj_id default).insert_segment seg insert_loc
    some (Plan.project_on_firefront { p with trajectories := p.trajectories.set traj_id tr1 })
  else none

/-- Source: `Plan::erase_segment` (`plan.h` lines 120-126). -/
def Plan.erase_segment (p : Plan) (traj_id : ℕ) (at_index : ℕ) : Option Plan :=
  if traj_id < p.trajectories.length ∧ at_index < (p.trajectories.getD traj_id default).size then
    let tr1 := (p.trajectories.getD traj_id default).erase_segment at_index
    some (Plan.project_on_firefront { p with trajectories := p.trajectories.set traj_id tr1 })
  else none

/-- Source: `Plan::replace_segment` (`plan.h` lines 128-134): after its
own two ASSERTs (note `at_index <= size`), it calls the plan-level
`erase_segment` and `insert_segment` (each of which runs the repair
pass) and then runs `project_on_firefront` once more. -/
def Plan.replace_segment (p : Plan) (traj_id : ℕ) (at_index : ℕ) (by_segment : Segment) :
    Option Plan :=
  if traj_id < p.trajectories.length ∧ at_index ≤ (p.trajectories.getD traj_id default).size then
    (p.erase_segment traj_id at_index).bind fun p1 =>
      (p1.insert_segment traj_id by_segment at_index).map Plan.project_on_firefront
  else none

/-- A minimal JSON value, enough for the configuration documents read
by `planning_py.cpp` (the `json` type itself comes from an external
library). -/
inductive JVal where
  | num : ℚ → JVal
  | boolean : Bool → JVal
  | obj : List (String × JVal) → JVal

instance : Inhabited JVal := ⟨JVal.obj []⟩

/-- Field access `conf[key]` as an optional lookup. -/
def JVal.get? : JVal → String → Option JVal
  | JVal.obj fields, k => fields.lookup k
  | _, _ => none

/-- Whether the document has the field. -/
def JVal.has (j : JVal) (k : String) : Bool := (j.get? k).isSome

/-- Field access `conf[key]` where the caller has already checked
presence. -/
def JVal.field (j : JVal) (k : String) : JVal := (j.get? k).getD default

/-- Modelled from the spec: `SAOP::check_field_is_present` is called by
`planning_py.cpp` but its definition is not among the given sources.
Per the spec (sections 6 and 7), a missing required field fails with a
configuration error identifying the missing key. -/
def check_field_is_present (conf : JVal) (key : String) : Except String Unit :=
  match conf.get? key with
  | some _ => Except.ok ()
  | none => Except.error ("configuration error: missing field " ++ key)

/-- The six required-field checks run by both `SAOP::plan_vns` and
`SAOP::replan_vns` before any fire-data preprocessing
(`planning_py.cpp` lines 79-88 and 123-132). -/
def config_checks (conf : JVal) : Except String Unit := do
  check_field_is_present conf "min_time"
  check_field_is_present conf "max_time"
  check_field_is_present conf "save_every"
  check_field_is_present conf "save_improvements"
  check_field_is_present conf "vns"
  check_field_is_present (conf.field "vns") "max_time"

/-- Source: `SAOP::plan_vns` (`planning_py.cpp` lines 71-112): the
required-field checks run first; everything after them (fire-data
preprocessing, plan construction and the search) is abstracted into
the function argument, so a theorem quantifying over that argument
states that a missing field fails before any of it happens. -/
def plan_vns {α : Type} (conf : JVal) (preprocess_and_plan : JVal → α) : Except String α := do
  config_checks conf
  pure (preprocess_and_plan conf)

/-- Source: `SAOP::replan_vns` (`planning_py.cpp` lines 115-160): the
same required-field checks run first; the fire-data preprocessing and
the replanning work that follow are abstracted into the function
argument. -/
def replan_vns {α : Type} (conf : JVal) (preprocess_and_replan : JVal → α) : Except String α := do
  config_checks conf
  pure (preprocess_and_replan conf)

/-- All six required configuration fields are present. -/
def required_fields_present (conf : JVal) : Bool :=
  conf.has "min_time" && conf.has "max_time" && conf.has "save_every" &&
    conf.has "save_improvements" && conf.has "vns" && (conf.field "vns").has "max_time"

/-- The operation the specification describes for
`Plan::replace_segment` (section 4.4): delegate the replacement to the
addressed trajectory (erase, then insert the new segment at the same
index) and then run a single global repair pass.  This definition
follows the spec's words, to be compared with `Plan.replace_segment`
translated from the source. -/
def Plan.replace_segment_spec (p : Plan) (traj_id : ℕ) (at_index : ℕ) (by_segment : Segment) :
    Option Plan :=
  if traj_id < p.trajectories.length ∧ at_index ≤ (p.trajectories.getD traj_id default).size then
    let tr1 := ((p.trajectories.getD traj_id default).erase_segment at_index).insert_segment
      by_segment at_index
    some (Plan.project_on_firefront { p with trajectories := p.trajectories.set traj_id tr1 })
  else none

/-! Concrete instances used by counterexamples and witnesses. -/

/-- A vehicle whose sensor footprint center is the segment's start
waypoint and whose travel time is the Manhattan distance between
waypoints. -/
def uavM : UAV := ⟨fun s => s.start, fun a b => |b.x - a.x| + |b.y - a.y|⟩

/-- A degenerate segment sitting at abscissa `x`. -/
def psegAt (x : ℚ) : Segment := ⟨⟨x, 0, 0⟩, ⟨x, 0, 0⟩⟩

/-- An empty raster. -/
def raster0 : Raster := ⟨0, 0, fun _ _ => 0, 0, 0, 1⟩

/-- A front advancing along the x axis at speed 2: the projection of
any segment at time `t` is the degenerate segment on the front line
`x = 2 t`. -/
def fireMoving : FireData := ⟨raster0, fun _ => 0, fun _ _ t => some (psegAt (2 * t))⟩

/-- A front model on which every segment is already its own
projection. -/
def fireFixed : FireData := ⟨raster0, fun _ => 0, fun s _ _ => some s⟩

/-- A front model with no projection anywhere. -/
def fireNone : FireData := ⟨raster0, fun _ => 0, fun _ _ _ => none⟩

/-- A trajectory configuration starting at time 0. -/
def confM : TrajectoryConfig := ⟨uavM, 0, 1000⟩

/-- One trajectory with a single segment at the origin. -/
def trOne : Trajectory := ⟨confM, [psegAt 0]⟩

/-- Plan for the idempotence counterexample: the second segment starts
at time 60 (Manhattan travel from the origin), so its projection onto
the front line `x = 2 t` keeps moving each time the repair pass
re-times it. -/
def planC1 : Plan := ⟨⟨0, 1000⟩, [⟨confM, [psegAt 0, psegAt 60]⟩], fireMoving, []⟩

/-- Plan whose segments are all fixed points of the projection. -/
def planFix : Plan := ⟨⟨0, 1000⟩, [trOne], fireFixed, []⟩

/-- Plan for the `replace_segment` counterexample and witnesses. -/
def planC5 : Plan := ⟨⟨0, 1000⟩, [⟨confM, [psegAt 60, psegAt 200]⟩], fireMoving, []⟩

/-- A 1-by-1 raster whose only cell ignites at time 5. -/
def rasterC6 : Raster := ⟨1, 1, fun _ _ => 5, 0, 0, 1⟩

/-- Fire data over `rasterC6` with informative windows ending at
time 7. -/
def fireC6 : FireData := ⟨rasterC6, fun _ => 7, fun s _ _ => some s⟩

/-- The plan built from no trajectories over `fireC6` on the window
`[0, 10]`. -/
def planC6 : Plan :=
  ⟨⟨0, 10⟩, [], fireC6, possibleObservations fireC6 ⟨0, 10⟩⟩

/-- A configuration document with all six required fields. -/
def confFull : JVal :=
  JVal.obj [("min_time", JVal.num 0), ("max_time", JVal.num 100),
            ("save_every", JVal.num 1), ("save_improvements", JVal.boolean true),
            ("vns", JVal.obj [("max_time", JVal.num 30)])]

/-- A configuration document missing `save_every`. -/
def confMissing : JVal :=
  JVal.obj [("min_time", JVal.num 0), ("max_time", JVal.num 100),
            ("save_improvements", JVal.boolean true),
            ("vns", JVal.obj [("max_time", JVal.num 30)])]

/-! Helper lemmas (shared). -/

theorem list_map_id_of_mem {α : Type} (l : List α) (f : α → α) (h : ∀ x ∈ l, f x = x) :
    l.map f = l := by
  induction l with
  | nil => rfl
  | cons a l ih =>
    have ha := h a (List.mem_cons_self a l)
    have ih2 := ih fun x hx => h x (List.mem_cons_of_mem a hx)
    simp [ha, ih2]

/-- One unfolding of the repair loop body. -/
theorem projectFrom_succ (fire : FireData) (fuel : ℕ) (tr : Trajectory) (seg_id : ℕ) :
    projectFrom fire (fuel + 1) tr seg_id =
      if seg_id < tr.size then
        match fire.project_on_firefront (tr.seg seg_id) tr.conf.uav (tr.start_time seg_id) with
        | some projected =>
          if projected = tr.seg seg_id then projectFrom fire fuel tr (seg_id + 1)
          else if 49 ^ 2 < prevDistSq tr seg_id projected ∧
                  49 ^ 2 < nextDistSq tr seg_id projected then
            projectFrom fire fuel ((tr.erase_segment seg_id).insert_segment projected seg_id)
              (seg_id + 1)
          else projectFrom fire fuel (tr.erase_segment seg_id) seg_id
        | none => projectFrom fire fuel (tr.erase_segment seg_id) seg_id
      else tr := rfl

/-- On a trajectory whose every segment is its own projection at its
scheduled start time, the repair loop only advances and changes
nothing. -/
theorem projectFrom_fixpoint (fire : FireData) (tr : Trajectory)
    (h : ∀ j, j < tr.size →
      fire.project_on_firefront (tr.seg j) tr.conf.uav (tr.start_time j) = some (tr.seg j)) :
    ∀ fuel seg_id, projectFrom fire fuel tr seg_id = tr := by
  intro fuel
  induction fuel with
  | zero => intro seg_id; rfl
  | succ n ih =>
    intro seg_id
    by_cases hi : seg_id < tr.size
    · rw [projectFrom_succ, if_pos hi, h seg_id hi]
      simp only [if_pos rfl]
      exact ih (seg_id + 1)
    · rw [projectFrom_succ, if_neg hi]

/-- C1 fails as stated: on `planC1` a second `project_on_firefront`
pass changes a trajectory that the first pass already produced
(replacing a segment re-times it, so its projection moves again). -/
theorem c1_counterexample :
    planC1.project_on_firefront.project_on_firefront.trajectories.map Trajectory.traj ≠
      planC1.project_on_firefront.trajectories.map Trajectory.traj := by
  norm_num [Plan.project_on_firefront, projectFrom, planC1, fireMoving, psegAt, confM, uavM,
    Trajectory.start_time, startTimes, Trajectory.seg, Trajectory.size, Trajectory.erase_segment,
    Trajectory.insert_segment, prevDistSq, nextDistSq, Point.dist_sq, Waypoint.as_point,
    List.insertIdx, List.eraseIdx]

/-- C1 (amended): the repair pass leaves a Plan unchanged — and is
therefore idempotent on it — whenever every segment of every
trajectory is already its own front projection at its scheduled start
time; in general a second pass may change trajectories, as
`c1_counterexample` shows. -/
theorem c1_fixpoint_idempotence (p : Plan)
    (h : ∀ tr ∈ p.trajectories, ∀ j, j < tr.size →
      p.fire.project_on_firefront (tr.seg j) tr.conf.uav (tr.start_time j) = some (tr.seg j)) :
    p.project_on_firefront = p ∧
      p.project_on_firefront.project_on_firefront = p.project_on_firefront := by
  have h1 : p.project_on_firefront = p := by
    have hmap : p.trajectories.map (fun tr => projectFrom p.fire tr.size tr 0) =
        p.trajectories :=
      list_map_id_of_mem _ _ fun tr htr => projectFrom_fixpoint p.fire tr (h tr htr) tr.size 0
    unfold Plan.project_on_firefront
    rw [hmap]
  exact ⟨h1, by rw [h1]; exact h1⟩

theorem c1_witness :
    planFix.project_on_firefront.project_on_firefront = planFix.project_on_firefront :=
  (c1_fixpoint_idempotence planFix fun _ _ _ _ => rfl).2

/-- C2: one iteration of the repair loop on the segment at `seg_id`:
no projection removes the segment; a projection equal to the segment
leaves it and advances; a differing projection removes the segment and
reinserts the projected one at the same index exactly when its
footprint center is farther than 49 length-units (strictly, compared
on squared distances) from both neighbouring footprint centers, the
squared distance being `999999 ^ 2` for a missing neighbour. -/
theorem c2_repair_step_rule (fire : FireData) (fuel : ℕ) (tr : Trajectory) (seg_id : ℕ)
    (h : seg_id < tr.size) :
    (fire.project_on_firefront (tr.seg seg_id) tr.conf.uav (tr.start_time seg_id) = none →
      projectFrom fire (fuel + 1) tr seg_id =
        projectFrom fire fuel (tr.erase_segment seg_id) seg_id) ∧
    (fire.project_on_firefront (tr.seg seg_id) tr.conf.uav (tr.start_time seg_id) =
        some (tr.seg seg_id) →
      projectFrom fire (fuel + 1) tr seg_id = projectFrom fire fuel tr (seg_id + 1)) ∧
    (∀ projected,
      fire.project_on_firefront (tr.seg seg_id) tr.conf.uav (tr.start_time seg_id) =
        some projected →
      projected ≠ tr.seg seg_id →
      projectFrom fire (fuel + 1) tr seg_id =
        if 49 ^ 2 < prevDistSq tr seg_id projected ∧
            49 ^ 2 < nextDistSq tr seg_id projected then
          projectFrom fire fuel ((tr.erase_segment seg_id).insert_segment projected seg_id)
            (seg_id + 1)
        else projectFrom fire fuel (tr.erase_segment seg_id) seg_id) := by
  refine ⟨?_, ?_, ?_⟩
  · intro hn
    rw [projectFrom_succ, if_pos h, hn]
  · intro hs
    rw [projectFrom_succ, if_pos h, hs]
    simp
  · intro projected hs hne
    rw [projectFrom_succ, if_pos h, hs]
    simp only [if_neg hne]

theorem c2_witness :
    0 < trOne.size ∧
      projectFrom fireNone 1 trOne 0 = projectFrom fireNone 0 (trOne.erase_segment 0) 0 :=
  ⟨by decide, (c2_repair_step_rule fireNone 0 trOne 0 (by decide)).1 rfl⟩

/-! Cost lemmas. -/

theorem foldl_min_dist_nonneg (pt : Point) (l : List PointTime) :
    ∀ m : ℝ, 0 ≤ m → 0 ≤ l.foldl (fun m obs => min m (Point.dist pt obs.pt)) m := by
  induction l with
  | nil => intro m hm; exact hm
  | cons o l ih =>
    intro m hm
    exact ih _ (le_min hm (Real.sqrt_nonneg _))

theorem foldl_min_dist_le (pt : Point) (l : List PointTime) :
    ∀ m : ℝ, l.foldl (fun m obs => min m (Point.dist pt obs.pt)) m ≤ m := by
  induction l with
  | nil => intro m; exact le_refl m
  | cons o l ih =>
    intro m
    exact (ih _).trans (min_le_left _ _)

theorem minDistTo_nonneg (done_obs : List PointTime) (pt : Point) :
    0 ≤ minDistTo done_obs pt :=
  foldl_min_dist_nonneg pt done_obs _ (by norm_num [MAX_INFORMATIVE_DISTANCE])

theorem minDistTo_le_max (done_obs : List PointTime) (pt : Point) :
    minDistTo done_obs pt ≤ MAX_INFORMATIVE_DISTANCE :=
  foldl_min_dist_le pt done_obs _

theorem selfCost_nonneg (done_obs : List PointTime) (pobs : PointTimeWindow) :
    0 ≤ selfCost done_obs pobs := by
  unfold selfCost
  rw [show MAX_INFORMATIVE_DISTANCE - REDUNDANT_OBS_DIST = (500 : ℝ) by
    norm_num [MAX_INFORMATIVE_DISTANCE, REDUNDANT_OBS_DIST]]
  apply div_nonneg _ (by norm_num)
  rw [sub_nonneg]
  exact le_max_right _ _

theorem selfCost_le_one (done_obs : List PointTime) (pobs : PointTimeWindow) :
    selfCost done_obs pobs ≤ 1 := by
  unfold selfCost
  rw [show MAX_INFORMATIVE_DISTANCE - REDUNDANT_OBS_DIST = (500 : ℝ) by
    norm_num [MAX_INFORMATIVE_DISTANCE, REDUNDANT_OBS_DIST]]
  rw [div_le_one (by norm_num)]
  have h1 : max (minDistTo done_obs pobs.pt) REDUNDANT_OBS_DIST ≤ MAX_INFORMATIVE_DISTANCE :=
    max_le (minDistTo_le_max _ _)
      (by norm_num [MAX_INFORMATIVE_DISTANCE, REDUNDANT_OBS_DIST])
  have h2 : MAX_INFORMATIVE_DISTANCE - REDUNDANT_OBS_DIST ≤ (500 : ℝ) := by
    norm_num [MAX_INFORMATIVE_DISTANCE, REDUNDANT_OBS_DIST]
  calc max (minDistTo done_obs pobs.pt) REDUNDANT_OBS_DIST - REDUNDANT_OBS_DIST
      ≤ MAX_INFORMATIVE_DISTANCE - REDUNDANT_OBS_DIST := by
        exact sub_le_sub_right h1 _
    _ ≤ 500 := h2

theorem foldl_add_eq_sum {β : Type} (f : β → ℝ) (l : List β) :
    ∀ a : ℝ, l.foldl (fun acc x => acc + f x) a = a + (l.map f).sum := by
  induction l with
  | nil => intro a; simp
  | cons x l ih =>
    intro a
    simp only [List.foldl_cons, List.map_cons, List.sum_cons]
    rw [ih]
    ring

/-- C3: the plan cost is the sum, over all possible observations, of
the per-cell cost `(max(min_dist, REDUNDANT_OBS_DIST) -
REDUNDANT_OBS_DIST) / (MAX_INFORMATIVE_DISTANCE - REDUNDANT_OBS_DIST)`
(that is `selfCost`), each term lying in `[0, 1]`; hence the cost is
nonnegative and at most the number of possible observations, and a
plan with no realized observations has cost equal to that number. -/
theorem c3_cost_bounds (p : Plan) :
    MAX_INFORMATIVE_DISTANCE = 500 ∧ REDUNDANT_OBS_DIST = 0 ∧
    p.cost = (p.possible_observations.map (selfCost p.observations)).sum ∧
    (∀ pobs ∈ p.possible_observations,
      0 ≤ selfCost p.observations pobs ∧ selfCost p.observations pobs ≤ 1) ∧
    0 ≤ p.cost ∧ p.cost ≤ (p.possible_observations.length : ℝ) ∧
    (p.observations = [] → p.cost = (p.possible_observations.length : ℝ)) := by
  have hsum : p.cost = (p.possible_observations.map (selfCost p.observations)).sum := by
    unfold Plan.cost
    rw [foldl_add_eq_sum, zero_add]
  refine ⟨rfl, rfl, hsum, fun pobs _ => ⟨selfCost_nonneg _ _, selfCost_le_one _ _⟩, ?_, ?_, ?_⟩
  · rw [hsum]
    exact List.sum_nonneg fun x hx => by
      obtain ⟨pobs, _, rfl⟩ := List.mem_map.mp hx
      exact selfCost_nonneg _ _
  · rw [hsum]
    have hle := List.sum_le_card_nsmul (p.possible_observations.map (selfCost p.observations)) 1
      fun x hx => by
        obtain ⟨pobs, _, rfl⟩ := List.mem_map.mp hx
        exact selfCost_le_one _ _
    rw [List.length_map, nsmul_eq_mul, mul_one] at hle
    exact hle
  · intro hobs
    rw [hsum, hobs]
    have hone : ∀ pobs : PointTimeWindow, selfCost [] pobs = 1 := by
      intro pobs
      norm_num [selfCost, minDistTo, MAX_INFORMATIVE_DISTANCE, REDUNDANT_OBS_DIST]
    rw [List.map_congr_left fun pobs _ => hone pobs]
    induction p.possible_observations with
    | nil => simp
    | cons h t ih =>
      simp_all
      ring

theorem c3_witness :
    planC6.observations = [] ∧ planC6.cost = (planC6.possible_observations.length : ℝ) :=
  ⟨rfl, (c3_cost_bounds planC6).2.2.2.2.2.2 rfl⟩

/-- C4: a point-time is returned by `observations()` exactly when it is
the sensor-footprint center of some segment, tagged with that segment's
start time, and that start time lies within the informative window
`[arrival(cell), departure(cell)]` of the cell containing the
center. -/
theorem c4_observations_membership (p : Plan) (o : PointTime) :
    o ∈ p.observations ↔
      ∃ traj ∈ p.trajectories, ∃ i < traj.size,
        p.fire.arrival (p.fire.ignitions.as_cell (traj.conf.uav.visibilty_center (traj.seg i))) ≤
            traj.start_time i ∧
        traj.start_time i ≤
          p.fire.departure
            (p.fire.ignitions.as_cell (traj.conf.uav.visibilty_center (traj.seg i))) ∧
        o = ⟨(traj.conf.uav.visibilty_center (traj.seg i)).as_point, traj.start_time i⟩ := by
  unfold Plan.observations
  simp only [List.mem_flatMap, List.mem_filterMap, List.mem_range, FireData.arrival,
    FireData.departure, Waypoint.as_point, Option.ite_none_right_eq_some, Option.some.injEq]
  constructor
  · rintro ⟨traj, htraj, i, hi, ⟨h1, h2⟩, rfl⟩
    exact ⟨traj, htraj, i, hi, h1, h2, rfl⟩
  · rintro ⟨traj, htraj, i, hi, h1, h2, rfl⟩
    exact ⟨traj, htraj, i, hi, ⟨h1, h2⟩, rfl⟩

/-- C5 fails as stated for `replace_segment`: on `planC5`, the source's
`replace_segment` (which composes the plan-level `erase_segment` and
`insert_segment`, each running a repair pass, plus a final repair) does
not produce the same trajectories as a trajectory-level replacement
followed by a single global repair pass. -/
theorem c5_counterexample :
    (planC5.replace_segment 0 1 (psegAt 30)).map (fun q => q.trajectories.map Trajectory.traj) ≠
      (planC5.replace_segment_spec 0 1 (psegAt 30)).map
        (fun q => q.trajectories.map Trajectory.traj) := by
  norm_num [Plan.replace_segment, Plan.replace_segment_spec, Plan.erase_segment,
    Plan.insert_segment, Plan.project_on_firefront, projectFrom, planC5, fireMoving, psegAt,
    confM, uavM, Trajectory.start_time, startTimes, Trajectory.seg, Trajectory.size,
    Trajectory.erase_segment, Trajectory.insert_segment, prevDistSq, nextDistSq, Point.dist_sq,
    Waypoint.as_point, List.insertIdx, List.eraseIdx, Option.bind, Option.map]

/-- C5 (amended): `insert_segment` and `erase_segment` each delegate
the structural edit to the addressed trajectory and then run
`project_on_firefront` over all trajectories exactly once;
`replace_segment`, however, is the composition of the plan-level
`erase_segment` and `insert_segment` followed by one further repair
pass (three global repair passes in total), not a trajectory-level
replacement followed by a single repair
(see `c5_counterexample`). -/
theorem c5_edits_run_repair (p : Plan) (tid : ℕ) (h1 : tid < p.trajectories.length) :
    (∀ s loc, loc ≤ (p.trajectories.getD tid default).size →
      p.insert_segment tid s loc =
        some (Plan.project_on_firefront { p with trajectories := p.trajectories.set tid ((p.trajectories.getD tid default).insert_segment s loc) })) ∧
    (∀ i, i < (p.trajectories.getD tid default).size →
      p.erase_segment tid i =
        some (Plan.project_on_firefront { p with trajectories := p.trajectories.set tid ((p.trajectories.getD tid default).erase_segment i) })) ∧
    (∀ i s, i ≤ (p.trajectories.getD tid default).size →
      p.replace_segment tid i s =
        (p.erase_segment tid i).bind fun p1 =>
          (p1.insert_segment tid s i).map Plan.project_on_firefront) := by
  refine ⟨?_, ?_, ?_⟩
  · intro s loc hloc
    unfold Plan.insert_segment
    rw [if_pos ⟨h1, hloc⟩]
  · intro i hi
    unfold Plan.erase_segment
    rw [if_pos ⟨h1, hi⟩]
  · intro i s hi
    unfold Plan.replace_segment
    rw [if_pos ⟨h1, hi⟩]

theorem c5_witness :
    planC5.replace_segment 0 1 (psegAt 30) =
      (planC5.erase_segment 0 1).bind fun p1 =>
        (p1.insert_segment 0 (psegAt 30) 1).map Plan.project_on_firefront :=
  (c5_edits_run_repair planC5 0 (by decide)).2.2 1 (psegAt 30) (by decide)

/-- C6: in a constructed plan, `possible_observations` holds exactly
the grid cells whose arrival (ignition) time lies within the plan's
time window, each paired with the cell's point and its informative
window `[arrival, departure]`. -/
theorem c6_possible_observations (confs : List TrajectoryConfig) (fire : FireData)
    (tw : TimeWindow) (p : Plan) (h : Plan.build confs fire tw = some p)
    (ptw : PointTimeWindow) :
    ptw ∈ p.possible_observations ↔
      ∃ x < fire.ignitions.x_width, ∃ y < fire.ignitions.y_height,
        tw.start ≤ fire.arrival ⟨x, y⟩ ∧ fire.arrival ⟨x, y⟩ ≤ tw.end_ ∧
        ptw = ⟨fire.ignitions.as_point ⟨x, y⟩,
               ⟨fire.arrival ⟨x, y⟩, fire.departure ⟨x, y⟩⟩⟩ := by
  have hp : p.possible_observations = possibleObservations fire tw := by
    unfold Plan.build at h
    by_cases hc : ∀ conf ∈ confs, tw.start ≤ conf.start_time ∧ conf.start_time ≤ tw.end_
    · rw [if_pos hc, Option.some.injEq] at h
      rw [← h]
    · rw [if_neg hc] at h
      exact absurd h (by simp)
  rw [hp]
  unfold possibleObservations
  simp only [List.mem_flatMap, List.mem_filterMap, List.mem_range,
    Option.ite_none_right_eq_some, Option.some.injEq, FireData.arrival, FireData.departure,
    Raster.at_cell]
  constructor
  · rintro ⟨x, hx, y, hy, ⟨h1, h2⟩, rfl⟩
    exact ⟨x, hx, y, hy, h1, h2, rfl⟩
  · rintro ⟨x, hx, y, hy, h1, h2, rfl⟩
    exact ⟨x, hx, y, hy, ⟨h1, h2⟩, rfl⟩

theorem c6_witness :
    Plan.build [] fireC6 ⟨0, 10⟩ = some planC6 ∧
      (⟨fireC6.ignitions.as_point ⟨0, 0⟩,
        ⟨fireC6.arrival ⟨0, 0⟩, fireC6.departure ⟨0, 0⟩⟩⟩ : PointTimeWindow) ∈
        planC6.possible_observations := by
  have hb : Plan.build [] fireC6 ⟨0, 10⟩ = some planC6 := by
    unfold Plan.build planC6
    rw [if_pos (by simp)]
    rfl
  refine ⟨hb, ?_⟩
  refine (c6_possible_observations [] fireC6 ⟨0, 10⟩ planC6 hb _).2 ?_
  refine ⟨0, by norm_num [fireC6, rasterC6], 0, by norm_num [fireC6, rasterC6], ?_, ?_, rfl⟩
  · norm_num [fireC6, rasterC6, FireData.arrival, Raster.at_cell]
  · norm_num [fireC6, rasterC6, FireData.arrival, Raster.at_cell]

theorem config_checks_ok (conf : JVal) (h : required_fields_present conf = true) :
    config_checks conf = Except.ok () := by
  unfold required_fields_present at h
  simp only [Bool.and_eq_true, JVal.has, Option.isSome_iff_exists] at h
  obtain ⟨⟨⟨⟨⟨⟨v1, h1⟩, v2, h2⟩, v3, h3⟩, v4, h4⟩, v5, h5⟩, v6, h6⟩ := h
  unfold config_checks check_field_is_present
  rw [h1, h2, h3, h4, h5, h6]
  rfl

theorem config_checks_err (conf : JVal) (h : required_fields_present conf = false) :
    ∃ k, config_checks conf = Except.error ("configuration error: missing field " ++ k) ∧
      (conf.get? k = none ∨ (conf.field "vns").get? k = none) := by
  by_cases h1 : (conf.get? "min_time").isSome
  case neg =>
    rw [Option.not_isSome_iff_eq_none] at h1
    refine ⟨"min_time", ?_, Or.inl h1⟩
    unfold config_checks check_field_is_present
    rw [h1]
    rfl
  case pos =>
  obtain ⟨v1, hv1⟩ := Option.isSome_iff_exists.mp h1
  by_cases h2 : (conf.get? "max_time").isSome
  case neg =>
    rw [Option.not_isSome_iff_eq_none] at h2
    refine ⟨"max_time", ?_, Or.inl h2⟩
    unfold config_checks check_field_is_present
    rw [hv1, h2]
    rfl
  case pos =>
  obtain ⟨v2, hv2⟩ := Option.isSome_iff_exists.mp h2
  by_cases h3 : (conf.get? "save_every").isSome
  case neg =>
    rw [Option.not_isSome_iff_eq_none] at h3
    refine ⟨"save_every", ?_, Or.inl h3⟩
    unfold config_checks check_field_is_present
    rw [hv1, hv2, h3]
    rfl
  case pos =>
  obtain ⟨v3, hv3⟩ := Option.isSome_iff_exists.mp h3
  by_cases h4 : (conf.get? "save_improvements").isSome
  case neg =>
    rw [Option.not_isSome_iff_eq_none] at h4
    refine ⟨"save_improvements", ?_, Or.inl h4⟩
    unfold config_checks check_field_is_present
    rw [hv1, hv2, hv3, h4]
    rfl
  case pos =>
  obtain ⟨v4, hv4⟩ := Option.isSome_iff_exists.mp h4
  by_cases h5 : (conf.get? "vns").isSome
  case neg =>
    rw [Option.not_isSome_iff_eq_none] at h5
    refine ⟨"vns", ?_, Or.inl h5⟩
    unfold config_checks check_field_is_present
    rw [hv1, hv2, hv3, hv4, h5]
    rfl
  case pos =>
  obtain ⟨v5, hv5⟩ := Option.isSome_iff_exists.mp h5
  by_cases h6 : ((conf.field "vns").get? "max_time").isSome
  case neg =>
    rw [Option.not_isSome_iff_eq_none] at h6
    refine ⟨"max_time", ?_, Or.inr h6⟩
    unfold config_checks check_field_is_present
    rw [hv1, hv2, hv3, hv4, hv5, h6]
    rfl
  case pos =>
  exfalso
  unfold required_fields_present at h
  simp only [JVal.has, hv1, hv2, hv3, hv4, hv5, h6, Option.isSome_some, Bool.and_self] at h
  simp at h

/-- C7: both `plan_vns` and `replan_vns` run the six required-field
checks (`min_time`, `max_time`, `save_every`, `save_improvements`,
`vns`, `vns.max_time`) before any fire-data preprocessing or planning
work (the result when a field is missing is an error independent of
the abstracted preprocessing-and-planning continuation), and the error
names a key that is indeed missing; when all six are present each
entry point proceeds to its continuation. -/
theorem c7_config_fail_fast {α β : Type} (conf : JVal) (f : JVal → α) (g : JVal → β) :
    (required_fields_present conf = true →
      plan_vns conf f = Except.ok (f conf) ∧ replan_vns conf g = Except.ok (g conf)) ∧
    (required_fields_present conf = false →
      ∃ k, plan_vns conf f = Except.error ("configuration error: missing field " ++ k) ∧
        replan_vns conf g = Except.error ("configuration error: missing field " ++ k) ∧
        (conf.get? k = none ∨ (conf.field "vns").get? k = none)) := by
  constructor
  · intro h
    have hok := config_checks_ok conf h
    constructor
    · show (config_checks conf).bind (fun _ => Except.ok (f conf)) = Except.ok (f conf)
      rw [hok]
      rfl
    · show (config_checks conf).bind (fun _ => Except.ok (g conf)) = Except.ok (g conf)
      rw [hok]
      rfl
  · intro h
    obtain ⟨k, hk, hmiss⟩ := config_checks_err conf h
    refine ⟨k, ?_, ?_, hmiss⟩
    · show (config_checks conf).bind (fun _ => Except.ok (f conf)) = _
      rw [hk]
      rfl
    · show (config_checks conf).bind (fun _ => Except.ok (g conf)) = _
      rw [hk]
      rfl

theorem c7_witness :
    required_fields_present confMissing = false ∧
      ∃ k, plan_vns confMissing (fun _ => (0 : ℕ)) =
          Except.error ("configuration error: missing field " ++ k) ∧
        replan_vns confMissing (fun _ => (0 : ℕ)) =
          Except.error ("configuration error: missing field " ++ k) ∧
        (confMissing.get? k = none ∨ (confMissing.field "vns").get? k = none) := by
  have hm : required_fields_present confMissing = false := by
    simp [required_fields_present, confMissing, JVal.has, JVal.get?, List.lookup]
  exact ⟨hm,
    (c7_config_fail_fast confMissing (fun _ => (0 : ℕ)) (fun _ => (0 : ℕ))).2 hm⟩

theorem insert_segment_frame (p : Plan) (tid : ℕ) (s : Segment) (loc : ℕ) (p1 : Plan)
    (h : p.insert_segment tid s loc = some p1) :
    p1.time_window = p.time_window ∧ p1.fire = p.fire ∧
      p1.possible_observations = p.possible_observations := by
  unfold Plan.insert_segment at h
  split at h
  · simp only [Option.some.injEq] at h
    subst h
    exact ⟨rfl, rfl, rfl⟩
  · exact absurd h (by simp)

theorem erase_segment_frame (p : Plan) (tid : ℕ) (i : ℕ) (p1 : Plan)
    (h : p.erase_segment tid i = some p1) :
    p1.time_window = p.time_window ∧ p1.fire = p.fire ∧
      p1.possible_observations = p.possible_observations := by
  unfold Plan.erase_segment at h
  split at h
  · simp only [Option.some.injEq] at h
    subst h
    exact ⟨rfl, rfl, rfl⟩
  · exact absurd h (by simp)

/-- C8: the repair pass only touches the trajectories: the time
window, the shared fire data and the possible observations of a plan
are unchanged by `project_on_firefront`, and hence by every successful
`insert_segment`, `erase_segment` and `replace_segment` call. -/
theorem c8_repair_frame (p : Plan) :
    p.project_on_firefront.time_window = p.time_window ∧
    p.project_on_firefront.fire = p.fire ∧
    p.project_on_firefront.possible_observations = p.possible_observations ∧
    (∀ tid s loc p1, p.insert_segment tid s loc = some p1 →
      p1.time_window = p.time_window ∧ p1.fire = p.fire ∧
        p1.possible_observations = p.possible_observations) ∧
    (∀ tid i p1, p.erase_segment tid i = some p1 →
      p1.time_window = p.time_window ∧ p1.fire = p.fire ∧
        p1.possible_observations = p.possible_observations) ∧
    (∀ tid i s p1, p.replace_segment tid i s = some p1 →
      p1.time_window = p.time_window ∧ p1.fire = p.fire ∧
        p1.possible_observations = p.possible_observations) := by
  refine ⟨rfl, rfl, rfl, fun tid s loc p1 h => insert_segment_frame p tid s loc p1 h,
    fun tid i p1 h => erase_segment_frame p tid i p1 h, ?_⟩
  intro tid i s p1 h
  unfold Plan.replace_segment at h
  split at h
  · cases he : p.erase_segment tid i with
    | none => rw [he] at h; exact absurd h (by simp)
    | some p2 =>
      rw [he] at h
      simp only [Option.some_bind] at h
      cases hi : p2.insert_segment tid s i with
      | none => rw [hi] at h; exact absurd h (by simp)
      | some p3 =>
        rw [hi] at h
        simp only [Option.map_some', Option.some.injEq] at h
        subst h
        obtain ⟨e1, e2, e3⟩ := erase_segment_frame p tid i p2 he
        obtain ⟨f1, f2, f3⟩ := insert_segment_frame p2 tid s i p3 hi
        exact ⟨by rw [show p3.project_on_firefront.time_window = p3.time_window from rfl,
            f1, e1],
          by rw [show p3.project_on_firefront.fire = p3.fire from rfl, f2, e2],
          by rw [show p3.project_on_firefront.possible_observations = p3.possible_observations
            from rfl, f3, e3]⟩
  · exact absurd h (by simp)

theorem c8_witness :
    planFix.project_on_firefront.possible_observations = planFix.possible_observations :=
  (c8_repair_frame planFix).2.2.1

/-- C9: constructing a plan requires every trajectory configuration's
start time to lie inside the plan's time window: one out-of-window
start time makes the construction fail its assertion (no plan is
produced), and when all start times are in the window the construction
succeeds. -/
theorem c9_build_window_assert (confs : List TrajectoryConfig) (fire : FireData)
    (tw : TimeWindow) :
    ((∃ conf ∈ confs, ¬(tw.start ≤ conf.start_time ∧ conf.start_time ≤ tw.end_)) →
      Plan.build confs fire tw = none) ∧
    ((∀ conf ∈ confs, tw.start ≤ conf.start_time ∧ conf.start_time ≤ tw.end_) →
      (Plan.build confs fire tw).isSome = true) := by
  constructor
  · rintro ⟨c, hcmem, hcbad⟩
    unfold Plan.build
    rw [if_neg]
    intro hall
    exact hcbad (hall c hcmem)
  · intro hall
    unfold Plan.build
    rw [if_pos hall]
    rfl

/-- A trajectory configuration whose start time lies before the time
window `[0, 100]`. -/
def confBad : TrajectoryConfig := ⟨uavM, -5, 1000⟩

theorem c9_witness : Plan.build [confBad] fireMoving ⟨0, 100⟩ = none :=
  (c9_build_window_assert [confBad] fireMoving ⟨0, 100⟩).1
    ⟨confBad, List.mem_cons_self confBad [], by norm_num [confBad]⟩

/-- C10: `replace_segment`'s own assertion admits `at_index = size`
(it only requires `at_index ≤ size`), but the `erase_segment` it
delegates to requires `at_index < size`, so a call with
`at_index = size` always returns no plan, and every successful call
has `at_index` strictly below the segment count. -/
theorem c10_replace_index_edge (p : Plan) (tid : ℕ) (s : Segment)
    (h1 : tid < p.trajectories.length) :
    p.replace_segment tid ((p.trajectories.getD tid default).size) s = none ∧
    (∀ i, (p.replace_segment tid i s).isSome = true →
      i < (p.trajectories.getD tid default).size) := by
  constructor
  · unfold Plan.replace_segment
    rw [if_pos ⟨h1, le_refl _⟩]
    unfold Plan.erase_segment
    rw [if_neg]
    · rfl
    · rintro ⟨-, hlt⟩
      exact lt_irrefl _ hlt
  · intro i hi
    by_contra hge
    push_neg at hge
    unfold Plan.replace_segment at hi
    split at hi
    · unfold Plan.erase_segment at hi
      rw [if_neg] at hi
      · simp at hi
      · rintro ⟨-, hlt⟩
        exact absurd hlt (not_lt.mpr hge)
    · simp at hi

theorem c10_witness :
    planC5.replace_segment 0 ((planC5.trajectories.getD 0 default).size) (psegAt 30) = none :=
  (c10_replace_index_edge planC5 0 (psegAt 30) (by decide)).1

theorem c4_witness :
    (⟨(trOne.conf.uav.visibilty_center (trOne.seg 0)).as_point, trOne.start_time 0⟩ :
        PointTime) ∈ planFix.observations := by
  refine (c4_observations_membership planFix _).2
    ⟨trOne, List.mem_cons_self trOne [], 0, by decide, ?_, ?_, rfl⟩
  · norm_num [FireData.arrival, planFix, fireFixed, raster0, Raster.at_cell, Raster.as_cell,
      trOne, confM, uavM, psegAt, Trajectory.start_time, startTimes, Trajectory.seg]
  · norm_num [FireData.departure, planFix, fireFixed, raster0, Raster.at_cell, Raster.as_cell,
      trOne, confM, uavM, psegAt, Trajectory.start_time, startTimes, Trajectory.seg]
